import Mathlib

/-!
Verification of the Ohio legal-corpus ingest pipeline against its
natural-language specification.

The definitions below are a shallow embedding of the Python sources:

* `ohio_case_law_old/.../lmdb/auto_enricher.py` (`AutoEnricher`)
* `ohio_revised/.../citation_analysis/citation_mapper.py` (`CitationMapper`)
* `ohio_administration/.../lmdb/build_comprehensive_lmdb.py`
  (`ComprehensiveLMDBBuilder`)
* `archive/legal_chain_retriever.py` (`LegalChainRetriever`)

Modelling conventions:
* Python `str` is Lean `String`; substring tests are list-infix tests on
  the character lists.
* Python `dict` (insertion ordered, unique keys) is an association list
  `List (String × τ)` searched with `alookup`; `set` accumulation is kept
  as a list and all claims about sets are stated via membership.
* Python machine integers are `Nat`/`Int`; the float arithmetic of the
  range-expansion loop in `extract_cross_references` is IEEE-754 binary64
  (`Float64`: signed 53-bit significand times a power of two, with
  correct round-to-nearest-even on parse, `+` and `-`, and exact value
  comparisons), interpreted in `ℚ` by `f2q` for the statements.
* Wall-clock fields (`scraped_date`, `created_at`, `timestamp`) and the
  LMDB/IO layer are outside the embedding: tables are association lists,
  `txn.put` is list append, `txn.get` is `alookup`.
-/

namespace OhioCode

/-- First-match association-list lookup: the model of a Python `dict`
read `m.get(k)` / `m[k]`. -/
def alookup {α : Type} (m : List (String × α)) (k : String) : Option α :=
  match m with
  | [] => none
  | (k', v) :: rest => if k' = k then some v else alookup rest k

/-- `m.get(k, [])` for a dict of lists. -/
def alookupD {α : Type} (m : List (String × List α)) (k : String) : List α :=
  (alookup m k).getD []

/-- `k in m` for a Python dict. -/
def keyMem {α : Type} (m : List (String × α)) (k : String) : Bool :=
  (alookup m k).isSome

@[simp] theorem alookup_nil {α : Type} (k : String) :
    alookup ([] : List (String × α)) k = none := rfl

@[simp] theorem alookup_cons {α : Type} (k' : String) (v : α) (rest : List (String × α))
    (k : String) :
    alookup ((k', v) :: rest) k = if k' = k then some v else alookup rest k := rfl

/-- Model of `re.search(pat, text)` for a plain-word pattern: the pattern
occurs as a contiguous substring of the text. -/
def containsSub (pat text : String) : Bool :=
  decide (pat.toList <:+: text.toList)

/-- Model of `'|' in header`. -/
def hasPipe (header : String) : Bool :=
  header.toList.contains '|'

/-! ### Python string primitives

The Python string operations the sources use (`split`, `strip`,
`replace`, `lower`, `sorted`) are given structural character-list
implementations, so every concrete claim evaluates inside the kernel. -/

/-- `s.split(sep)` on the character level: split at every character
satisfying `p`, keeping empty pieces. -/
def splitPredList (p : Char → Bool) : List Char → List (List Char)
  | [] => [[]]
  | c :: rest =>
    match splitPredList p rest with
    | [] => [[c]]
    | h :: t => if p c then [] :: h :: t else (c :: h) :: t

/-- Python `s.split(sep)` for a one-character separator. -/
def pySplitOn (s : String) (sep : Char) : List String :=
  (splitPredList (fun c => c == sep) s.toList).map String.mk

/-- Python `s.strip()`. -/
def pyStrip (s : String) : String :=
  String.mk (((s.toList.dropWhile Char.isWhitespace).reverse.dropWhile
    Char.isWhitespace).reverse)

/-- Python `s.replace(old, new)`, non-overlapping, left to right.  Each
step consumes at least one character (the sources only replace non-empty
patterns), so `cs.length` fuel always suffices. -/
def replaceGo (old new : List Char) : Nat → List Char → List Char
  | _, [] => []
  | 0, cs => cs
  | fuel + 1, c :: rest =>
    if old.isPrefixOf (c :: rest) then
      new ++ replaceGo old new fuel ((c :: rest).drop old.length)
    else c :: replaceGo old new fuel rest

def pyReplace (s old new : String) : String :=
  if old.toList.isEmpty then s
  else String.mk (replaceGo old.toList new.toList s.toList.length s.toList)

/-- Python `s.lower()` (all compared text is ASCII). -/
def pyToLower (s : String) : String :=
  String.mk (s.toList.map Char.toLower)

/-- Python `s[:n]`. -/
def pyTake (s : String) (n : Nat) : String :=
  String.mk (s.toList.take n)

/-- Python `s.split()`: split on whitespace runs, dropping empty pieces. -/
def pythonWords (s : String) : List String :=
  ((splitPredList Char.isWhitespace s.toList).filter (fun w => !w.isEmpty)).map String.mk

/-- Python string `<=`: lexicographic by code point. -/
def lexLe : List Char → List Char → Bool
  | [], _ => true
  | _ :: _, [] => false
  | c :: cs, d :: ds => if c = d then lexLe cs ds else decide (c < d)

/-! ## `AutoEnricher._calculate_complexity`
(`auto_enricher.py`, lines 250-276) -/

/-- `AutoEnricher._calculate_complexity(word_count, paragraph_count,
citation_count)`: score starts at 5, is adjusted by the three factors and
clamped with `max(1, min(10, score))`. -/
def calculate_complexity (word_count paragraph_count citation_count : Nat) : Int :=
  let score : Int := 5
  let score := if word_count > 1000 then score + 2
    else if word_count > 500 then score + 1
    else if word_count < 100 then score - 1
    else score
  let score := if paragraph_count > 15 then score + 2
    else if paragraph_count > 10 then score + 1
    else score
  let score := if citation_count > 10 then score + 2
    else if citation_count > 5 then score + 1
    else if citation_count = 0 then score - 1
    else score
  max 1 (min 10 score)

/-- The complexity formula as the specification words it (§4.4): start at
5; add 2 if word count > 1000 else 1 if > 500, subtract 1 if < 100; add 2
if paragraph count > 15 else 1 if > 10; add 2 if forward citation count
> 10 else 1 if > 5, subtract 1 if 0; clamp to `[1,10]`. -/
def complexity_spec (word_count paragraph_count citation_count : Nat) : Int :=
  let wordFactor : Int :=
    if word_count > 1000 then 2 else if word_count > 500 then 1
    else if word_count < 100 then -1 else 0
  let paraFactor : Int :=
    if paragraph_count > 15 then 2 else if paragraph_count > 10 then 1 else 0
  let citeFactor : Int :=
    if citation_count > 10 then 2 else if citation_count > 5 then 1
    else if citation_count = 0 then -1 else 0
  max 1 (min 10 (5 + wordFactor + paraFactor + citeFactor))

/-! ## `AutoEnricher._generate_summary` (`auto_enricher.py`, lines 138-160) -/

/-- `AutoEnricher._generate_summary(header)`: with no pipe the whole
stripped header is returned; otherwise a stem phrase is prefixed to the
lower-cased post-pipe title. -/
def generate_summary (header : String) : String :=
  if hasPipe header = false then pyStrip header
  else
    let parts := pySplitOn header '|'
    match parts with
    | [] => pyStrip header
    | [_] => pyStrip header
    | _ :: titleRaw :: _ =>
      let titlePart := pyStrip titleRaw
      let titleLower := pyToLower titlePart
      if containsSub "definition" titleLower || containsSub "definitions" titleLower
          || containsSub "defined" titleLower then
        "Defines " ++ titleLower
      else if containsSub "penalty" titleLower || containsSub "penalties" titleLower
          || containsSub "punishment" titleLower then
        "Establishes penalties for " ++ titleLower
      else if containsSub "procedure" titleLower || containsSub "process" titleLower
          || containsSub "filing" titleLower then
        "Describes procedure for " ++ titleLower
      else
        "Relates to " ++ titleLower

/-! ## `AutoEnricher._extract_offense_level` (`auto_enricher.py`, lines 224-232) -/

/-- `AutoEnricher._extract_offense_level(text)`: the branches are tested
in source order felony, misdemeanor, minor misdemeanor; each test is a
case-insensitive search for the literal phrase. -/
def extract_offense_level (text : String) : Option String :=
  let t := pyToLower text
  if containsSub "felony" t then some "felony"
  else if containsSub "misdemeanor" t then some "misdemeanor"
  else if containsSub "minor misdemeanor" t then some "minor_misdemeanor"
  else none

/-! ## Data model

Python `dict` records are embedded as structures.  Field `section` of the
Python dicts is spelled `sectionId` (`section` is a Lean keyword); the
wall-clock fields `scraped_date` / `created_at` and the enrichment fields
no claim touches (`legal_type`, `practice_areas`, `key_terms`,
`offense_level`, `offense_degree`) are not carried in the structures. -/

/-- One line of the corpus JSONL file (`{url, url_hash, header, paragraphs}`). -/
structure InputRecord where
  url : String
  url_hash : String
  header : String
  paragraphs : List String
deriving Repr, DecidableEq

/-- The `enrichment` record attached by `AutoEnricher.enrich_section`. -/
structure Enrichment where
  summary : String
  complexity : Int
deriving Repr, DecidableEq

/-- A value of the `primary` table (`OhioSectionDict` in
`build_comprehensive_lmdb.py`). -/
structure LegalSection where
  section_number : String
  url : String
  url_hash : String
  header : String
  section_title : String
  paragraphs : List String
  full_text : String
  word_count : Nat
  paragraph_count : Nat
  has_citations : Bool
  citation_count : Nat
  in_complex_chain : Bool
  is_clickable : Bool
  enrichment : Enrichment
deriving Repr, DecidableEq

/-- `citation_map.json` as loaded: section id to list of referenced ids. -/
abbrev CitationMap := List (String × List String)

/-- One record of `complex_chains.jsonl` as written by
`CitationMapper.save_results`. -/
structure SavedChain where
  chain_id : String
  primary_section : String
  chain_sections : List String
  estimated_complexity : Nat
deriving Repr, DecidableEq

/-- One entry of `citation_contexts.jsonl`'s `citations` array. -/
structure CitationContext where
  target : String
  relationship : String
  context : String
  position : Nat
deriving Repr, DecidableEq

/-- A row of `references_details` (`ReferenceDetailDict`). -/
structure RefDetail where
  sectionId : String
  title : String
  url : String
  url_hash : String
  relationship : String
  context : String
  position : Nat
deriving Repr, DecidableEq

/-- A value of the `citations` table (`CitationDataDict`). -/
structure CitationData where
  sectionId : String
  direct_references : List String
  reference_count : Nat
  references_details : List RefDetail
deriving Repr, DecidableEq

/-- A row of `citing_details` (`CitingDetailDict`). -/
structure CitingDetail where
  sectionId : String
  title : String
  url : String
deriving Repr, DecidableEq

/-- A value of the `reverse_citations` table (`ReverseCitationDataDict`). -/
structure ReverseCitationData where
  sectionId : String
  cited_by : List String
  cited_by_count : Nat
  citing_details : List CitingDetail
deriving Repr, DecidableEq

/-- A snapshot entry of `complete_chain`. -/
structure ChainSnapshot where
  sectionId : String
  title : String
  url : String
  url_hash : String
  full_text : String
  word_count : Nat
deriving Repr, DecidableEq

/-- A value of the `chains` table (`CitationChainDict`). -/
structure ChainRecord where
  chain_id : String
  primary_section : String
  chain_sections : List String
  chain_depth : Nat
  references_count : Nat
  complete_chain : List ChainSnapshot
deriving Repr, DecidableEq

/-! ## Reverse-citation map

`build_comprehensive_lmdb.py` builds the same structure twice with the
same loop (`load_citation_data` lines 150-156, for `is_clickable`, and
`build_reverse_citations_database` lines 323-330): for each
`(section, references)` of the citation map, `reverse_map[ref].add(section)`
for every `ref`.  The Python values are `set`s; they are kept here as
duplicate-free lists and every claim about them is stated via membership. -/

/-- `reverse_map.setdefault(t, set()).add(s)`. -/
def rmInsert (m : List (String × List String)) (t s : String) :
    List (String × List String) :=
  match m with
  | [] => [(t, [s])]
  | (k, v) :: rest =>
    if k = t then (k, if s ∈ v then v else v ++ [s]) :: rest
    else (k, v) :: rmInsert rest t s

/-- The double loop building the reverse citation map. -/
def buildReverseMap (cm : CitationMap) : List (String × List String) :=
  cm.foldl (fun m p => p.2.foldl (fun m' r => rmInsert m' r p.1) m) []

/-! ## `build_sections_database` (`build_comprehensive_lmdb.py`, lines 175-247)

One corpus line is turned into a `primary`-table entry, or skipped when
the header has no pipe.  The enrichment step is
`AutoEnricher.enrich_section`: `summary` from the header and `complexity`
from the counts and the citation count. -/

/-- The per-line body of `build_sections_database`: `none` models the
`continue` on a header without a pipe, otherwise the key/value pair put
into the `primary` table. -/
def processRecord (citationMap : CitationMap) (chainsMap : List (String × SavedChain))
    (doc : InputRecord) : Option (String × LegalSection) :=
  if hasPipe doc.header = false then none
  else
    let headerParts := pySplitOn doc.header '|'
    let sectionNum := pyStrip (pyReplace (pyReplace (headerParts.headD "") "Section " "") "Rule " "")
    let sectionTitle := match headerParts with
      | _ :: t :: _ => pyStrip t
      | _ => ""
    let reverseMap := buildReverseMap citationMap
    let hasForward := keyMem citationMap sectionNum
    let hasReverse := keyMem reverseMap sectionNum
    let wordCount := (doc.paragraphs.map (fun p => (pythonWords p).length)).sum
    let citationCount := (alookupD citationMap sectionNum).length
    some (sectionNum,
      { section_number := sectionNum
        url := doc.url
        url_hash := doc.url_hash
        header := doc.header
        section_title := sectionTitle
        paragraphs := doc.paragraphs
        full_text := String.intercalate "\n" doc.paragraphs
        word_count := wordCount
        paragraph_count := doc.paragraphs.length
        has_citations := hasForward
        citation_count := citationCount
        in_complex_chain := keyMem chainsMap sectionNum
        is_clickable := hasForward || hasReverse
        enrichment :=
          { summary := generate_summary doc.header
            complexity := calculate_complexity wordCount doc.paragraphs.length citationCount } })

/-- The whole `primary` table built from the corpus stream. -/
def buildSectionsDatabase (citationMap : CitationMap)
    (chainsMap : List (String × SavedChain)) (docs : List InputRecord) :
    List (String × LegalSection) :=
  docs.filterMap (processRecord citationMap chainsMap)

/-! ## `build_citations_database` (`build_comprehensive_lmdb.py`, lines 249-317) -/

/-- `enhanced_map[target] = citation` in a loop: later entries overwrite,
so a lookup sees the last occurrence. -/
def enhancedLookup (ctxs : List CitationContext) (t : String) : Option CitationContext :=
  ctxs.reverse.find? (fun c => c.target == t)

/-- The detail row built for one referenced id: enhanced context when
available, and title/url/url_hash from the primary data when the target
exists there — empty strings otherwise. -/
def mkRefDetail (ctxs : List CitationContext)
    (sectionsData : List (String × LegalSection)) (ref : String) : RefDetail :=
  let rel := match enhancedLookup ctxs ref with
    | some e => (e.relationship, pyTake e.context 100, e.position)
    | none => ("cross_reference", "", 0)
  match alookup sectionsData ref with
  | some rd =>
    { sectionId := ref, title := rd.section_title, url := rd.url,
      url_hash := rd.url_hash, relationship := rel.1, context := rel.2.1,
      position := rel.2.2 }
  | none =>
    { sectionId := ref, title := "", url := "", url_hash := "",
      relationship := rel.1, context := rel.2.1, position := rel.2.2 }

/-- The `citations`-table value built for one citation-map entry. -/
def mkCitationData (contextsMap : List (String × List CitationContext))
    (sectionsData : List (String × LegalSection)) (s : String) (refs : List String) :
    CitationData :=
  { sectionId := s
    direct_references := refs
    reference_count := refs.length
    references_details := refs.map (mkRefDetail (alookupD contextsMap s) sectionsData) }

/-- The `citations` table: one entry per citation-map key. -/
def buildCitationsDatabase (cm : CitationMap)
    (contextsMap : List (String × List CitationContext))
    (sectionsData : List (String × LegalSection)) : List (String × CitationData) :=
  cm.map fun p => (p.1, mkCitationData contextsMap sectionsData p.1 p.2)

/-! ## `build_reverse_citations_database` (`build_comprehensive_lmdb.py`, lines 319-362) -/

/-- Insertion sort on strings: the model of Python `sorted` on the
citing-section set (only the membership of the result is used). -/
def insertSorted (x : String) : List String → List String
  | [] => [x]
  | y :: ys => if lexLe x.toList y.toList then x :: y :: ys else y :: insertSorted x ys

def sortStrings (l : List String) : List String := l.foldr insertSorted []

/-- The `reverse_citations` table: one entry per reverse-map key, with
`cited_by` sorted and `citing_details` restricted to citing sections
present in the primary data. -/
def mkReverseCitationData (sectionsData : List (String × LegalSection))
    (t : String) (citers : List String) : ReverseCitationData :=
  let sorted := sortStrings citers
  { sectionId := t
    cited_by := sorted
    cited_by_count := citers.length
    citing_details := sorted.filterMap fun c =>
      (alookup sectionsData c).map fun sd =>
        { sectionId := c, title := sd.section_title, url := sd.url } }

def buildReverseCitationsDatabase (cm : CitationMap)
    (sectionsData : List (String × LegalSection)) : List (String × ReverseCitationData) :=
  (buildReverseMap cm).map fun p => (p.1, mkReverseCitationData sectionsData p.1 p.2)

/-! ## Complex chains

`CitationMapper.save_results` (`citation_mapper.py`, lines 387-397) writes
one JSONL record per complex chain, with `chain_id = f"complex_{i}"` from
the enumeration index and `primary_section = chain[0]`;
`load_citation_data` keys `chains_map` by that `chain_id`, and
`build_chains_database` (`build_comprehensive_lmdb.py`, lines 364-405)
puts each record under its `chain_id`. -/

/-- `save_results`: the complex-chains records.  (`chain[0]` presupposes a
non-empty chain — complex chains have length ≥ 4 — modelled by `headD`.) -/
def saveComplexChains (chains : List (List String)) : List SavedChain :=
  chains.enum.map fun p =>
    { chain_id := "complex_" ++ toString p.1
      primary_section := p.2.headD ""
      chain_sections := p.2
      estimated_complexity := p.2.length }

/-- `load_citation_data`: `chains_map[chain['chain_id']] = chain`. -/
def loadChainsMap (saved : List SavedChain) : List (String × SavedChain) :=
  saved.map fun c => (c.chain_id, c)

/-- The `chains` table: each record keyed by its `chain_id`, with
`complete_chain` snapshots for the chain members present in the primary
data (`chain_depth` comes from the record's `estimated_complexity`). -/
def mkChainRecord (sectionsData : List (String × LegalSection))
    (cid : String) (cd : SavedChain) : ChainRecord :=
  { chain_id := cid
    primary_section := cd.primary_section
    chain_sections := cd.chain_sections
    chain_depth := cd.estimated_complexity
    references_count := cd.chain_sections.length
    complete_chain := cd.chain_sections.filterMap fun s =>
      (alookup sectionsData s).map fun sd =>
        { sectionId := s, title := sd.section_title, url := sd.url,
          url_hash := sd.url_hash, full_text := sd.full_text,
          word_count := sd.word_count } }

def buildChainsDatabase (chainsMap : List (String × SavedChain))
    (sectionsData : List (String × LegalSection)) : List (String × ChainRecord) :=
  chainsMap.map fun p => (p.1, mkChainRecord sectionsData p.1 p.2)

/-! ## `CitationMapper._build_reference_chain`
(`citation_mapper.py`, lines 266-288)

The `while` loop pops one queue element per iteration.  Elements are
enqueued only when a chain entry is appended (at most 3 each time) and the
chain is capped at `max_size`, so at most `1 + 3·max_size` elements are
ever enqueued and that many iterations suffice; the loop is run on that
much fuel (the zero-fuel branch is unreachable). -/

def chainLoop (cm : CitationMap) (maxSize : Nat) :
    Nat → List String → List String → List String → List String
  | 0, chain, _, _ => chain
  | fuel + 1, chain, visited, queue =>
    if chain.length < maxSize then
      match queue with
      | [] => chain
      | current :: rest =>
        if current ∈ visited then chainLoop cm maxSize fuel chain visited rest
        else
          let visited' := visited ++ [current]
          let chain' := chain ++ [current]
          let toAdd := ((alookupD cm current).take 3).filter
            (fun r => !visited'.contains r && keyMem cm r)
          chainLoop cm maxSize fuel chain' visited' (rest ++ toAdd)
    else chain

/-- `_build_reference_chain(start_section, citation_map, max_size)`.  The
reference lists stand in iteration order (the Python values are `set`s;
the claims fix the order by listing the map explicitly). -/
def build_reference_chain (cm : CitationMap) (startSection : String)
    (maxSize : Nat) : List String :=
  chainLoop cm maxSize (3 * maxSize + 1) [] [] [startSection]

/-! ## `CitationMapper.extract_cross_references`
(`citation_mapper.py`, lines 174-212)

The regex layer is the Python `re` library; the embedding starts at its
output: each match of the reference patterns is either a single captured
id or a range `(start, end)` from
`[Ss]ections?\s+(\d+\.\d+)(?:\s+to\s+(\d+\.\d+))?`.

Python's floats are IEEE-754 binary64, and the loop's behaviour depends
on their rounding (`124.99 + 0.01` lands exactly on `125.0`, while from
`124.9` the loop passes `125.00000000000006` and never hits a whole
number), so the embedding carries actual doubles: a `Float64` is a signed
significand times a power of two, `roundRat` is correct rounding to 53
bits with ties to even (the semantics of `float()` on a decimal literal
and of each `+`/`-`), and the value comparisons (`<=`, `== int(...)`,
against the int `20`) are exact, as they are in Python.  Subnormals and
overflow to infinity are outside the model: every value the loop reaches
for corpus-shaped section numbers is a normal double. -/

/-- Value of a digit string. -/
def digitsVal (cs : List Char) : Nat :=
  cs.foldl (fun n c => n * 10 + (c.toNat - 48)) 0

/-- A binary64 value `m · 2^e`; `roundRat` keeps `|m| ∈ [2^52, 2^53)`
(or `m = 0`). -/
structure Float64 where
  m : ℤ
  e : ℤ
deriving Repr, DecidableEq

/-- The exact rational a `Float64` denotes. -/
def f2q (x : Float64) : ℚ :=
  (x.m : ℚ) * 2 ^ x.e

/-- `2^e` as a fraction of naturals: numerator for `e ≥ 0`. -/
def pow2Pos (e : ℤ) : ℕ := 2 ^ e.toNat

/-- `2^e` as a fraction of naturals: denominator for `e ≤ 0`. -/
def pow2Neg (e : ℤ) : ℕ := 2 ^ (-e).toNat

/-- Bit length by fueled halving (all operands here are far below
`2^256`). -/
def bitLenFuel : Nat → Nat → Nat
  | 0, _ => 0
  | _ + 1, 0 => 0
  | fuel + 1, n + 1 => bitLenFuel fuel ((n + 1) / 2) + 1

/-- Does `(n/q) · 2^(-e)` lie in `[2^52, 2^53)`? -/
def inRange53 (n q : ℕ) (e : ℤ) : Bool :=
  decide (2 ^ 52 * (q * pow2Pos e) ≤ n * pow2Neg e)
    && decide (n * pow2Neg e < 2 ^ 53 * (q * pow2Pos e))

/-- The binade of `n/q`: the `e` with `n/q · 2^(-e) ∈ [2^52, 2^53)`.
The true exponent is within one of the bit-length estimate, so it is
among the five candidates; the final fallback is unreachable. -/
def findExp (n q : ℕ) : ℤ :=
  let e0 : ℤ := (bitLenFuel 256 n : ℤ) - (bitLenFuel 256 q : ℤ) - 53
  if inRange53 n q (e0 - 2) then e0 - 2
  else if inRange53 n q (e0 - 1) then e0 - 1
  else if inRange53 n q e0 then e0
  else if inRange53 n q (e0 + 1) then e0 + 1
  else e0 + 2

/-- Round the rational `p / q` (for `q > 0`) to the nearest binary64,
ties to even — the rounding every IEEE-754 operation applies to its exact
result. -/
def roundRat (p : ℤ) (q : ℕ) : Float64 :=
  if p = 0 ∨ q = 0 then ⟨0, 0⟩
  else
    let n := p.natAbs
    let e := findExp n q
    let N := n * pow2Neg e
    let D := q * pow2Pos e
    let qt := N / D
    let r := N % D
    let m0 := qt + (if 2 * r > D ∨ (2 * r = D ∧ qt % 2 = 1) then 1 else 0)
    let me : ℕ × ℤ := if m0 = 2 ^ 53 then (2 ^ 52, e + 1) else (m0, e)
    ⟨if p < 0 then -(me.1 : ℤ) else (me.1 : ℤ), me.2⟩

/-- Double addition: the exact (dyadic) sum, correctly rounded. -/
def fadd (x y : Float64) : Float64 :=
  if x.m = 0 then y
  else if y.m = 0 then x
  else
    let emin := min x.e y.e
    let M := x.m * ((2 : ℤ) ^ (x.e - emin).toNat) + y.m * ((2 : ℤ) ^ (y.e - emin).toNat)
    roundRat (M * (pow2Pos emin : ℤ)) (pow2Neg emin)

def fneg (x : Float64) : Float64 := ⟨-x.m, x.e⟩

/-- Double subtraction (`end_num - start_num`, correctly rounded). -/
def fsub (x y : Float64) : Float64 := fadd x (fneg y)

/-- `x <= y` on doubles — exact on the represented values. -/
def fle (x y : Float64) : Bool :=
  let emin := min x.e y.e
  decide (x.m * ((2 : ℤ) ^ (x.e - emin).toNat) ≤ y.m * ((2 : ℤ) ^ (y.e - emin).toNat))

/-- `x <= n` for a Python int `n` — exact, as Python compares them. -/
def fleInt (x : Float64) (n : ℤ) : Bool :=
  decide (x.m * (pow2Pos x.e : ℤ) ≤ n * (pow2Neg x.e : ℤ))

/-- `current == int(current)`: the double is integer-valued. -/
def fIsWhole (x : Float64) : Bool :=
  decide (x.m % (pow2Neg x.e : ℤ) = 0)

/-- `int(current)` (evaluated only at integer-valued doubles, where
truncation is exact). -/
def fIntPart (x : Float64) : ℤ :=
  x.m * (pow2Pos x.e : ℤ) / (pow2Neg x.e : ℤ)

/-- The double literal `0.01`. -/
def float001 : Float64 := roundRat 1 100

/-- `float(s)` restricted to the `digits.digits` shape the reference
patterns capture; any other shape raises `ValueError` (`none`). -/
def parseSectionNum (s : String) : Option Float64 :=
  match pySplitOn s '.' with
  | [ip, fp] =>
    if !ip.toList.isEmpty && !fp.toList.isEmpty && ip.toList.all Char.isDigit
        && fp.toList.all Char.isDigit then
      some (roundRat ((digitsVal ip.toList * 10 ^ fp.toList.length
        + digitsVal fp.toList : ℕ) : ℤ) (10 ^ fp.toList.length))
    else none
  | _ => none

/-- The `while current <= end_num` body on `fuel` iterations: emit
`f"{int(current)}.01"` at whole values, then `current += 0.01`.  For
corpus-magnitude values each step strictly grows `current` by about 0.01
and the guard bounds the gap by 20, so 4096 iterations always suffice
(at magnitudes where the increment would be absorbed, the Python loop
itself never terminates). -/
def expandLoop (endNum : Float64) : Nat → Float64 → List String → List String
  | 0, _, acc => acc
  | fuel + 1, current, acc =>
    if fle current endNum then
      expandLoop endNum fuel (fadd current float001)
        (if fIsWhole current then acc ++ [toString (fIntPart current) ++ ".01"] else acc)
    else acc

/-- The range-expansion block: guarded by `end_num - start_num <= 20`
(a double subtraction compared exactly with the int 20), then the loop. -/
def rangeExpansion (a b : Float64) : List String :=
  if fleInt (fsub b a) 20 then expandLoop b 4096 a [] else []

/-- One regex match of the reference patterns: a singleton capture, or a
range capture with both groups present. -/
inductive RefMatch where
  | single (s : String)
  | range (startStr endStr : String)
deriving Repr, DecidableEq

/-- The references one match contributes: both endpoints always, plus the
expansion when both endpoints parse (`except ValueError: pass`). -/
def refsOfMatch : RefMatch → List String
  | .single s => [s]
  | .range a b =>
    [a, b] ++ (match parseSectionNum a, parseSectionNum b with
      | some a', some b' => rangeExpansion a' b'
      | _, _ => [])

/-- The validation regex `^\d{3,4}\.\d+$`. -/
def validSectionFormat (s : String) : Bool :=
  match pySplitOn s '.' with
  | [ip, fp] =>
    decide (3 ≤ ip.toList.length) && decide (ip.toList.length ≤ 4)
      && ip.toList.all Char.isDigit
      && decide (1 ≤ fp.toList.length) && fp.toList.all Char.isDigit
  | _ => false

/-- `extract_cross_references` from the match layer down: accumulate the
contributions of all matches, strip, and keep the well-formed ids.  The
Python accumulators are `set`s; the list stands for them via membership. -/
def extract_cross_references (ms : List RefMatch) : List String :=
  ((ms.flatMap refsOfMatch).map pyStrip).filter validSectionFormat

/-- The chapter prefix of a dotted section id (the claim's notion of
"chapter prefix": the digits before the dot). -/
def chapterPrefix (s : String) : String :=
  (pySplitOn s '.').headD ""

/-! ## `LegalChainRetriever` (`legal_chain_retriever.py`)

The store is the five tables; reads are `alookup`.  `get_complete_context`
(lines 98-191) composes the bundle.  `chain_depth` is absent from the
Python dict until a chain is found and read back with a `0` default; it is
modelled as a `Nat` field starting at `0`.  The `verified_date` of a
source entry is wall-clock provenance and is not carried. -/

structure PrimaryInfo where
  sectionId : String
  title : String
  url : String
  url_hash : String
  full_text : String
  word_count : Nat
  paragraph_count : Nat
deriving Repr, DecidableEq

structure CitationSnapshot where
  sectionId : String
  title : String
  url : String
  url_hash : String
  full_text : String
  word_count : Nat
deriving Repr, DecidableEq

structure ReverseSnapshot where
  sectionId : String
  title : String
  url : String
  url_hash : String
deriving Repr, DecidableEq

structure SourceInfo where
  sectionId : String
  url : String
  url_hash : String
deriving Repr, DecidableEq

/-- The five coordinated tables (metadata omitted: no claim reads it). -/
structure Store where
  primary : List (String × LegalSection)
  citations : List (String × CitationData)
  reverse : List (String × ReverseCitationData)
  chains : List (String × ChainRecord)
deriving Repr

/-- The bundle returned by `get_complete_context`. -/
structure CompleteContext where
  primary_section : PrimaryInfo
  direct_citations : List CitationSnapshot
  reverse_citations : List ReverseSnapshot
  citation_chain : List ChainSnapshot
  chain_depth : Nat
  total_context_words : Nat
  sources : List SourceInfo
deriving Repr, DecidableEq

/-- `get_chain(section_number)`: a read of the `chains` table. -/
def getChain (store : Store) (sectionNumber : String) : Option ChainRecord :=
  alookup store.chains sectionNumber

/-! `get_complete_context(section_number, include_chain, include_reverse,
max_chain_depth)` is embedded as its base bundle plus the three
augmentation blocks of its body, composed in source order.  A
references-details row whose target misses the primary table contributes
nothing (`if ref_section:`), as does a citing-details row whose source
misses it. -/

/-- The bundle before the three augmentation blocks run. -/
def ccBase (sectionNumber : String) (sec : LegalSection) : CompleteContext :=
  { primary_section :=
      { sectionId := sectionNumber, title := sec.section_title, url := sec.url,
        url_hash := sec.url_hash, full_text := sec.full_text,
        word_count := sec.word_count, paragraph_count := sec.paragraph_count }
    direct_citations := []
    reverse_citations := []
    citation_chain := []
    chain_depth := 0
    total_context_words := sec.word_count
    sources := [{ sectionId := sectionNumber, url := sec.url, url_hash := sec.url_hash }] }

/-- The body of the direct-citations loop: a details row whose target
misses the primary table contributes nothing (`if ref_section:`). -/
def dcStep (primary : List (String × LegalSection)) (c : CompleteContext)
    (rd : RefDetail) : CompleteContext :=
  match alookup primary rd.sectionId with
  | none => c
  | some rs =>
    { c with
      direct_citations := c.direct_citations ++
        [{ sectionId := rd.sectionId, title := rs.section_title, url := rs.url,
           url_hash := rs.url_hash, full_text := rs.full_text,
           word_count := rs.word_count }]
      total_context_words := c.total_context_words + rs.word_count
      sources := c.sources ++
        [{ sectionId := rd.sectionId, url := rs.url, url_hash := rs.url_hash }] }

/-- The direct-citations block of `get_complete_context`. -/
def ccWithCitations (store : Store) (sectionNumber : String)
    (c : CompleteContext) : CompleteContext :=
  match alookup store.citations sectionNumber with
  | none => c
  | some cd => cd.references_details.foldl (dcStep store.primary) c

/-- The body of the reverse-citations loop. -/
def rvStep (primary : List (String × LegalSection)) (c : CompleteContext)
    (cdet : CitingDetail) : CompleteContext :=
  match alookup primary cdet.sectionId with
  | none => c
  | some cs =>
    { c with reverse_citations := c.reverse_citations ++
        [{ sectionId := cdet.sectionId, title := cs.section_title,
           url := cs.url, url_hash := cs.url_hash }] }

/-- The reverse-citations block (guarded by `include_reverse`). -/
def ccWithReverse (store : Store) (sectionNumber : String) (includeReverse : Bool)
    (c : CompleteContext) : CompleteContext :=
  if includeReverse then
    match alookup store.reverse sectionNumber with
    | none => c
    | some rv => rv.citing_details.foldl (rvStep store.primary) c
  else c

/-- The chain block (guarded by `include_chain`, truncated to
`max_chain_depth`). -/
def ccWithChain (store : Store) (sectionNumber : String) (includeChain : Bool)
    (maxChainDepth : Nat) (c : CompleteContext) : CompleteContext :=
  if includeChain then
    match getChain store sectionNumber with
    | none => c
    | some ch =>
      let chainItems := ch.complete_chain.take maxChainDepth
      let extra := (chainItems.filter (fun it => it.sectionId ≠ sectionNumber)).foldl
        (fun n it => n + it.word_count) 0
      { c with
        citation_chain := chainItems
        chain_depth := chainItems.length
        total_context_words := c.total_context_words + extra }
  else c

def getCompleteContext (store : Store) (sectionNumber : String)
    (includeChain includeReverse : Bool) (maxChainDepth : Nat) :
    Option CompleteContext :=
  match alookup store.primary sectionNumber with
  | none => none
  | some sec =>
    some (ccWithChain store sectionNumber includeChain maxChainDepth
      (ccWithReverse store sectionNumber includeReverse
        (ccWithCitations store sectionNumber (ccBase sectionNumber sec))))

/-- Membership in the value stored under a key (the reverse map's
"`x` is recorded as citing `k`"). -/
def memVal (m : List (String × List String)) (k x : String) : Prop :=
  ∃ v, alookup m k = some v ∧ x ∈ v

/-- The new-set value rmInsert stores under `t`. -/
def rmNewVal (m : List (String × List String)) (t s : String) : List String :=
  match alookup m t with
  | none => [s]
  | some v => if s ∈ v then v else v ++ [s]

/-! ## Concrete inputs used by the claims -/

/-- Scenario 4's forward map (spec §8), in the listed order. -/
def citationMapScenario4 : CitationMap :=
  [("A", ["B", "C"]), ("B", ["D", "E"]), ("C", ["F"]), ("D", ["G", "H"]),
   ("E", []), ("F", ["I"]), ("G", []), ("H", []), ("I", [])]

/-- A single complex chain, as `analyze_citation_patterns` would emit it. -/
def failingChains : List (List String) :=
  [["100.01", "100.02", "100.03", "100.04"]]

/-- A citation map carrying an entry with an empty reference list (as
`build_citation_mapping` stores one for a section whose text yields no
references). -/
def cmEmptyEntry : CitationMap := [("100.01", [])]

/-- A well-formed corpus record for section 100.01. -/
def recClickable : InputRecord :=
  { url := "u", url_hash := "h", header := "Rule 100.01|T", paragraphs := ["x"] }

/-- A corpus record with an empty paragraphs array. -/
def recEmptyParas : InputRecord :=
  { url := "u", url_hash := "h", header := "Section 100.01|T", paragraphs := [] }

/-- A corpus record whose header has no pipe delimiter. -/
def recNoPipe : InputRecord :=
  { url := "u", url_hash := "h", header := "Section 100.01 Title no pipe",
    paragraphs := ["x"] }

/-- A citation map with one dangling target: 9999.99 never appears in the
corpus. -/
def cmDangling : CitationMap := [("100.01", ["9999.99"])]

/-- The one corpus record of the dangling-reference scenario. -/
def recDangling : InputRecord :=
  { url := "u1", url_hash := "h1", header := "Section 100.01|T", paragraphs := ["text"] }

/-- Primary table of the dangling-reference scenario. -/
def primaryDangling : List (String × LegalSection) :=
  buildSectionsDatabase cmDangling [] [recDangling]

/-- The full store of the dangling-reference scenario. -/
def storeDangling : Store :=
  { primary := primaryDangling
    citations := buildCitationsDatabase cmDangling [] primaryDangling
    reverse := buildReverseCitationsDatabase cmDangling primaryDangling
    chains := [] }

/-- The citations-table value the dangling-reference scenario stores for
100.01 (checked against `buildCitationsDatabase` in the theorems). -/
def cdDangling : CitationData :=
  { sectionId := "100.01"
    direct_references := ["9999.99"]
    reference_count := 1
    references_details :=
      [{ sectionId := "9999.99", title := "", url := "", url_hash := "",
         relationship := "cross_reference", context := "", position := 0 }] }

/-- A small symmetric-citation example for witnesses. -/
def cmPair : CitationMap := [("100.01", ["100.02", "100.03"]), ("100.02", ["100.01"])]

end OhioCode

namespace OhioCode

/-! ## Helper lemmas -/

/-- Substring containment is transitive through an intermediate string. -/
theorem containsSub_of_infix {p q : String} (t : String)
    (hpq : p.toList <:+: q.toList) (h : containsSub q t = true) :
    containsSub p t = true := by
  simp only [containsSub, decide_eq_true_eq] at *
  exact hpq.trans h

/-- Looking up a key-preserving mapped table. -/
theorem alookup_tableMap {α β : Type} (F : String → α → β)
    (l : List (String × α)) (k : String) :
    alookup (l.map fun p => (p.1, F p.1 p.2)) k = (alookup l k).map (F k) := by
  induction l with
  | nil => rfl
  | cons hd tl ih =>
    obtain ⟨k', v⟩ := hd
    by_cases h : k' = k
    · subst h; simp [alookup]
    · simp [alookup, h, ih]

theorem mem_insertSorted (x a : String) (l : List String) :
    a ∈ insertSorted x l ↔ a = x ∨ a ∈ l := by
  induction l with
  | nil => simp [insertSorted]
  | cons y ys ih =>
    simp only [insertSorted]
    split_ifs with h
    · simp [List.mem_cons]
    · simp only [List.mem_cons, ih]
      tauto

theorem mem_sortStrings (a : String) (l : List String) :
    a ∈ sortStrings l ↔ a ∈ l := by
  induction l with
  | nil => simp [sortStrings]
  | cons y ys ih =>
    simp only [sortStrings, List.foldr_cons] at *
    rw [mem_insertSorted, ih]
    simp [List.mem_cons]

theorem alookup_rmInsert_self (m : List (String × List String)) (t s : String) :
    alookup (rmInsert m t s) t = some (rmNewVal m t s) := by
  induction m with
  | nil => simp [rmInsert, rmNewVal, alookup]
  | cons hd tl ih =>
    obtain ⟨k', v⟩ := hd
    by_cases hkt : k' = t
    · subst hkt
      simp [rmInsert, rmNewVal, alookup]
    · simp [rmInsert, rmNewVal, alookup, hkt, ih]

theorem alookup_rmInsert_ne (m : List (String × List String)) (t s k : String)
    (h : k ≠ t) : alookup (rmInsert m t s) k = alookup m k := by
  induction m with
  | nil =>
    have htk : t ≠ k := fun hh => h hh.symm
    simp [rmInsert, alookup, htk]
  | cons hd tl ih =>
    obtain ⟨k', v⟩ := hd
    by_cases hkt : k' = t
    · subst hkt
      have hkk : k' ≠ k := fun hh => h (hh ▸ rfl)
      simp [rmInsert, alookup, hkk]
    · by_cases hkk : k' = k
      · subst hkk
        simp [rmInsert, alookup, hkt]
      · simp [rmInsert, alookup, hkt, hkk, ih]

theorem mem_rmNewVal (m : List (String × List String)) (t s x : String) :
    x ∈ rmNewVal m t s ↔ memVal m t x ∨ x = s := by
  unfold rmNewVal memVal
  cases h : alookup m t with
  | none => simp
  | some v =>
    by_cases hs : s ∈ v
    · simp only [if_pos hs, Option.some.injEq]
      constructor
      · intro hx; exact Or.inl ⟨v, rfl, hx⟩
      · rintro (⟨w, hw, hx⟩ | rfl)
        · cases hw; exact hx
        · exact hs
    · simp only [if_neg hs, Option.some.injEq, List.mem_append, List.mem_singleton]
      constructor
      · rintro (hx | rfl)
        · exact Or.inl ⟨v, rfl, hx⟩
        · exact Or.inr rfl
      · rintro (⟨w, hw, hx⟩ | rfl)
        · cases hw; exact Or.inl hx
        · exact Or.inr rfl

theorem memVal_rmInsert (m : List (String × List String)) (t s k x : String) :
    memVal (rmInsert m t s) k x ↔ memVal m k x ∨ (k = t ∧ x = s) := by
  by_cases hkt : k = t
  · subst hkt
    unfold memVal
    rw [alookup_rmInsert_self]
    simp only [Option.some.injEq]
    constructor
    · rintro ⟨w, hw, hx⟩
      cases hw
      rcases (mem_rmNewVal m k s x).mp hx with h | h
      · exact Or.inl h
      · exact Or.inr ⟨by simp, h⟩
    · rintro (h | ⟨-, hxs⟩)
      · exact ⟨_, rfl, (mem_rmNewVal m k s x).mpr (Or.inl h)⟩
      · exact ⟨_, rfl, (mem_rmNewVal m k s x).mpr (Or.inr hxs)⟩
  · unfold memVal
    rw [alookup_rmInsert_ne m t s k hkt]
    simp [hkt]

theorem memVal_foldl_rmInsert (refs : List String) (s : String)
    (m : List (String × List String)) (k x : String) :
    memVal (refs.foldl (fun m' r => rmInsert m' r s) m) k x ↔
      memVal m k x ∨ (x = s ∧ k ∈ refs) := by
  induction refs generalizing m with
  | nil => simp
  | cons r rs ih =>
    simp only [List.foldl_cons, ih, memVal_rmInsert, List.mem_cons]
    tauto

theorem memVal_buildReverseMap_from (cm : CitationMap)
    (m₀ : List (String × List String)) (k x : String) :
    memVal (cm.foldl (fun m p => p.2.foldl (fun m' r => rmInsert m' r p.1) m) m₀) k x ↔
      memVal m₀ k x ∨ ∃ refs, (x, refs) ∈ cm ∧ k ∈ refs := by
  induction cm generalizing m₀ with
  | nil => simp
  | cons p ps ih =>
    obtain ⟨a, arefs⟩ := p
    simp only [List.foldl_cons, ih, memVal_foldl_rmInsert, List.mem_cons]
    constructor
    · rintro ((h | ⟨hx, hk⟩) | ⟨refs, hmem, hk⟩)
      · exact Or.inl h
      · exact Or.inr ⟨arefs, Or.inl (by rw [hx]), hk⟩
      · exact Or.inr ⟨refs, Or.inr hmem, hk⟩
    · rintro (h | ⟨refs, (hmem | hmem), hk⟩)
      · exact Or.inl (Or.inl h)
      · obtain ⟨hx, hr⟩ := Prod.mk.injEq .. ▸ hmem
        exact Or.inl (Or.inr ⟨hx, hr ▸ hk⟩)
      · exact Or.inr ⟨refs, hmem, hk⟩

/-- Membership characterization of the reverse citation map. -/
theorem memVal_buildReverseMap (cm : CitationMap) (k x : String) :
    memVal (buildReverseMap cm) k x ↔ ∃ refs, (x, refs) ∈ cm ∧ k ∈ refs := by
  have h := memVal_buildReverseMap_from cm [] k x
  simpa [buildReverseMap, memVal] using h

/-- With duplicate-free keys (a Python dict), a lookup hit is list
membership. -/
theorem alookup_eq_some_iff_mem {α : Type} (m : List (String × α))
    (hnd : (m.map Prod.fst).Nodup) (k : String) (v : α) :
    alookup m k = some v ↔ (k, v) ∈ m := by
  induction m with
  | nil => simp
  | cons hd tl ih =>
    obtain ⟨k', v'⟩ := hd
    simp only [List.map_cons, List.nodup_cons] at hnd
    simp only [alookup_cons, List.mem_cons]
    by_cases h : k' = k
    · subst h
      rw [if_pos rfl]
      simp only [Option.some.injEq, Prod.mk.injEq]
      constructor
      · rintro rfl; exact Or.inl (by simp)
      · rintro (⟨_, rfl⟩ | hmem)
        · rfl
        · exact absurd (List.mem_map.mpr ⟨_, hmem, rfl⟩) hnd.1
    · rw [if_neg h]
      simp only [ih hnd.2, Prod.mk.injEq]
      constructor
      · exact Or.inr
      · rintro (⟨hk, _⟩ | hmem)
        · exact absurd hk.symm h
        · exact hmem

/-- C5: the code's complexity equals the spec formula on all inputs. -/
theorem calculate_complexity_eq_spec (wc pc cc : Nat) :
    calculate_complexity wc pc cc = complexity_spec wc pc cc := by
  unfold calculate_complexity complexity_spec
  split_ifs <;> decide

theorem complexity_bounds (wc pc cc : Nat) :
    1 ≤ calculate_complexity wc pc cc ∧ calculate_complexity wc pc cc ≤ 10 := by
  unfold calculate_complexity
  split_ifs <;> decide

/-! ## Table-lookup lemmas -/

theorem alookup_buildCitationsDatabase (cm : CitationMap)
    (ctxs : List (String × List CitationContext)) (sd : List (String × LegalSection))
    (s : String) :
    alookup (buildCitationsDatabase cm ctxs sd) s =
      (alookup cm s).map (mkCitationData ctxs sd s) := by
  unfold buildCitationsDatabase
  exact alookup_tableMap (mkCitationData ctxs sd) cm s

theorem alookup_buildReverseCitationsDatabase (cm : CitationMap)
    (sd : List (String × LegalSection)) (t : String) :
    alookup (buildReverseCitationsDatabase cm sd) t =
      (alookup (buildReverseMap cm) t).map (mkReverseCitationData sd t) := by
  unfold buildReverseCitationsDatabase
  exact alookup_tableMap (mkReverseCitationData sd) (buildReverseMap cm) t

theorem mkRefDetail_sectionId (ctxs : List CitationContext)
    (sd : List (String × LegalSection)) (r : String) :
    (mkRefDetail ctxs sd r).sectionId = r := by
  unfold mkRefDetail
  cases alookup sd r <;> rfl

theorem mkRefDetail_dangling (ctxs : List CitationContext)
    (sd : List (String × LegalSection)) (r : String) (h : alookup sd r = none) :
    (mkRefDetail ctxs sd r).title = "" ∧ (mkRefDetail ctxs sd r).url = "" := by
  unfold mkRefDetail
  rw [h]
  exact ⟨rfl, rfl⟩

/-! ## `get_complete_context` invariants -/

/-- Every direct-citation snapshot the loop appends has its target in the
primary table. -/
theorem foldl_dcStep_invariant (primary : List (String × LegalSection))
    (details : List RefDetail) (c : CompleteContext)
    (hc : ∀ d ∈ c.direct_citations, (alookup primary d.sectionId).isSome = true) :
    ∀ d ∈ (details.foldl (dcStep primary) c).direct_citations,
      (alookup primary d.sectionId).isSome = true := by
  induction details generalizing c with
  | nil => exact hc
  | cons rd rest ih =>
    refine ih (dcStep primary c rd) ?_
    intro d hd
    unfold dcStep at hd
    cases h : alookup primary rd.sectionId with
    | none => rw [h] at hd; exact hc d hd
    | some rs =>
      rw [h] at hd
      simp only [List.mem_append, List.mem_singleton] at hd
      rcases hd with hd | hd
      · exact hc d hd
      · subst hd; simp [h]

theorem ccWithCitations_direct_invariant (store : Store) (s : String)
    (c : CompleteContext)
    (hc : ∀ d ∈ c.direct_citations, (alookup store.primary d.sectionId).isSome = true) :
    ∀ d ∈ (ccWithCitations store s c).direct_citations,
      (alookup store.primary d.sectionId).isSome = true := by
  unfold ccWithCitations
  cases h : alookup store.citations s with
  | none => exact hc
  | some cd => exact foldl_dcStep_invariant store.primary cd.references_details c hc

/-- The reverse-citations loop never touches `direct_citations`. -/
theorem foldl_rvStep_direct (primary : List (String × LegalSection))
    (details : List CitingDetail) (c : CompleteContext) :
    (details.foldl (rvStep primary) c).direct_citations = c.direct_citations := by
  induction details generalizing c with
  | nil => rfl
  | cons cdet rest ih =>
    rw [List.foldl_cons, ih]
    unfold rvStep
    cases alookup primary cdet.sectionId <;> rfl

theorem ccWithReverse_direct (store : Store) (s : String) (ir : Bool)
    (c : CompleteContext) :
    (ccWithReverse store s ir c).direct_citations = c.direct_citations := by
  unfold ccWithReverse
  cases ir with
  | false => rfl
  | true =>
    simp only [if_true]
    cases alookup store.reverse s with
    | none => rfl
    | some rv => exact foldl_rvStep_direct store.primary rv.citing_details c

/-- The chain block never touches `direct_citations`. -/
theorem ccWithChain_direct (store : Store) (s : String) (ic : Bool) (mcd : Nat)
    (c : CompleteContext) :
    (ccWithChain store s ic mcd c).direct_citations = c.direct_citations := by
  unfold ccWithChain
  cases ic with
  | false => rfl
  | true =>
    simp only [if_true]
    cases getChain store s <;> rfl

theorem isSome_map {α β : Type} (f : α → β) (o : Option α) :
    (o.map f).isSome = o.isSome := by
  cases o <;> rfl

/-- `2^e` over `ℚ` as the quotient of its two natural components. -/
theorem zpow_eq_pow2_div (e : ℤ) :
    (2 : ℚ) ^ e = (pow2Pos e : ℚ) / (pow2Neg e : ℚ) := by
  unfold pow2Pos pow2Neg
  rcases le_or_lt 0 e with he | he
  · have h1 : (-e).toNat = 0 := by omega
    have h2 : (2 : ℚ) ^ e = (2 : ℚ) ^ (e.toNat : ℤ) := by
      rw [Int.toNat_of_nonneg he]
    rw [h1, h2, zpow_natCast]
    push_cast
    simp
  · have h1 : e.toNat = 0 := by omega
    have h2 : (2 : ℚ) ^ e = ((2 : ℚ) ^ ((-e).toNat : ℤ))⁻¹ := by
      rw [← zpow_neg, Int.toNat_of_nonneg (by omega), neg_neg]
    rw [h1, h2, zpow_natCast]
    push_cast
    simp [one_div]

/-- The cross-multiplied int comparison agrees with the double's exact
rational value, as Python's float-int comparison does. -/
theorem fleInt_iff (x : Float64) (n : ℤ) :
    fleInt x n = true ↔ f2q x ≤ (n : ℚ) := by
  have hb : (0 : ℚ) < (pow2Neg x.e : ℚ) := by
    unfold pow2Neg; positivity
  unfold fleInt f2q
  rw [decide_eq_true_eq, zpow_eq_pow2_div, ← mul_div_assoc, div_le_iff₀ hb]
  constructor <;> intro h <;> exact_mod_cast h

/-! ## The claims -/

/-- C1: the code evaluated at the failing input.  The chain record built
for the complex chain rooted at 100.01 is keyed by — and carries —
`chain_id = "complex_0"`, not the id of its primary section
(`chain_sections[0] = "100.01"`), so the read-side `get_chain("100.01")`
lookup keyed by the section id finds nothing. -/
theorem chain_id_mismatch_failing_input :
    ∃ r : ChainRecord,
      alookup (buildChainsDatabase (loadChainsMap (saveComplexChains failingChains)) [])
        "complex_0" = some r ∧
      r.chain_id = "complex_0" ∧
      r.chain_sections.headD "" = "100.01" ∧
      r.chain_id ≠ r.chain_sections.headD "" ∧
      getChain
        { primary := [], citations := [], reverse := [],
          chains := buildChainsDatabase (loadChainsMap (saveComplexChains failingChains)) [] }
        "100.01" = none := by
  refine ⟨_, rfl, rfl, rfl, by decide, by decide⟩

/-- C2 counterexample: section 100.01 has a citation-map entry with an
empty reference list.  The stored section has `is_clickable = true` while
its forward citation count is 0 and no reverse-citation entry for it
exists — the claimed biconditional fails. -/
theorem is_clickable_counterexample :
    (processRecord cmEmptyEntry [] recClickable).map
        (fun p => (p.1, p.2.is_clickable, p.2.citation_count)) =
      some ("100.01", true, 0) ∧
    alookup (buildReverseCitationsDatabase cmEmptyEntry []) "100.01" = none := by
  exact ⟨by decide, by decide⟩

/-- C2 (amended): `is_clickable` is true iff the citations table has an
entry for the section's id — even an entry with an empty reference list,
for which the forward citation count is 0 — or a reverse-citations entry
for the id exists. -/
theorem is_clickable_amended (cm : CitationMap)
    (ctxs : List (String × List CitationContext)) (sd : List (String × LegalSection))
    (chainsMap : List (String × SavedChain)) (doc : InputRecord)
    (h : hasPipe doc.header = true) :
    ∃ id sec, processRecord cm chainsMap doc = some (id, sec) ∧
      (sec.is_clickable = true ↔
        (alookup (buildCitationsDatabase cm ctxs sd) id).isSome = true ∨
        (alookup (buildReverseCitationsDatabase cm sd) id).isSome = true) := by
  unfold processRecord
  rw [if_neg (by simp [h])]
  refine ⟨_, _, rfl, ?_⟩
  simp only [keyMem, alookup_buildCitationsDatabase,
    alookup_buildReverseCitationsDatabase, isSome_map, Bool.or_eq_true]

/-- C2 witness for the amended claim, at the concrete 100.01 record. -/
theorem is_clickable_amended_witness :
    ∃ id sec, processRecord cmEmptyEntry [] recClickable = some (id, sec) ∧
      (sec.is_clickable = true ↔
        (alookup (buildCitationsDatabase cmEmptyEntry [] []) id).isSome = true ∨
        (alookup (buildReverseCitationsDatabase cmEmptyEntry []) id).isSome = true) :=
  is_clickable_amended cmEmptyEntry [] [] [] recClickable (by decide)

/-- C3: reverse-forward symmetry.  For the two tables built from one
citation map (keys duplicate-free, as in a Python dict): `t` is among the
`direct_references` of the citations entry for `s` iff `s` is among the
`cited_by` of the reverse entry for `t`. -/
theorem forward_reverse_symmetry (cm : CitationMap)
    (ctxs : List (String × List CitationContext)) (sd : List (String × LegalSection))
    (hnd : (cm.map Prod.fst).Nodup) (s t : String) :
    (∃ cd, alookup (buildCitationsDatabase cm ctxs sd) s = some cd ∧
       t ∈ cd.direct_references) ↔
    (∃ rd, alookup (buildReverseCitationsDatabase cm sd) t = some rd ∧
       s ∈ rd.cited_by) := by
  have hL : (∃ cd, alookup (buildCitationsDatabase cm ctxs sd) s = some cd ∧
      t ∈ cd.direct_references) ↔ ∃ refs, alookup cm s = some refs ∧ t ∈ refs := by
    rw [alookup_buildCitationsDatabase]
    cases halo : alookup cm s with
    | none => simp
    | some refs => simp [mkCitationData]
  have hR : (∃ rd, alookup (buildReverseCitationsDatabase cm sd) t = some rd ∧
      s ∈ rd.cited_by) ↔ memVal (buildReverseMap cm) t s := by
    rw [alookup_buildReverseCitationsDatabase]
    unfold memVal
    cases halo : alookup (buildReverseMap cm) t with
    | none => simp
    | some citers => simp [mkReverseCitationData, mem_sortStrings]
  rw [hL, hR, memVal_buildReverseMap]
  constructor
  · rintro ⟨refs, h1, h2⟩
    exact ⟨refs, (alookup_eq_some_iff_mem cm hnd s refs).mp h1, h2⟩
  · rintro ⟨refs, h1, h2⟩
    exact ⟨refs, (alookup_eq_some_iff_mem cm hnd s refs).mpr h1, h2⟩

/-- C3 witness at the concrete two-entry map. -/
theorem forward_reverse_symmetry_witness :
    (∃ cd, alookup (buildCitationsDatabase cmPair [] []) "100.01" = some cd ∧
       "100.02" ∈ cd.direct_references) ↔
    (∃ rd, alookup (buildReverseCitationsDatabase cmPair []) "100.02" = some rd ∧
       "100.01" ∈ rd.cited_by) :=
  forward_reverse_symmetry cmPair [] [] (by decide) "100.01" "100.02"

set_option maxRecDepth 40000 in
/-- C4 counterexample: the matched range `sections 124.99 to 125.5` has
endpoints with different chapter prefixes (124 vs 125) and gap 0.51 ≤ 20,
and the float loop really does hit a whole number (`124.99 + 0.01` rounds
to exactly `125.0`), so the intermediate id 125.01 is recorded —
expansion is not conditional on a shared chapter prefix. -/
theorem range_expansion_counterexample :
    "125.01" ∈ extract_cross_references [RefMatch.range "124.99" "125.5"] ∧
    "125.01" ≠ "124.99" ∧ "125.01" ≠ "125.5" ∧
    chapterPrefix "124.99" ≠ chapterPrefix "125.5" := by
  exact ⟨by decide, by decide, by decide, by decide⟩

/-- C4 (amended): for a matched inclusive range, when the numeric gap
between the endpoints — the value of the program's float subtraction
`end_num - start_num` — exceeds 20, only the two endpoints are
contributed; conversely, any contributed id other than the endpoints
implies that gap is at most 20 — the shared-chapter-prefix condition does
not exist in the code. -/
theorem range_expansion_amended (a b : String) (fa fb : Float64)
    (ha : parseSectionNum a = some fa) (hb : parseSectionNum b = some fb) :
    ((20 : ℚ) < f2q (fsub fb fa) → refsOfMatch (RefMatch.range a b) = [a, b]) ∧
    (∀ x ∈ refsOfMatch (RefMatch.range a b), x ≠ a → x ≠ b →
      f2q (fsub fb fa) ≤ 20) := by
  have hgap := fleInt_iff (fsub fb fa) 20
  rw [show (((20 : ℤ) : ℚ)) = (20 : ℚ) by norm_num] at hgap
  have hmatch : refsOfMatch (RefMatch.range a b) = [a, b] ++ rangeExpansion fa fb := by
    simp [refsOfMatch, ha, hb]
  constructor
  · intro hgt
    have hfalse : fleInt (fsub fb fa) 20 = false := by
      cases hg : fleInt (fsub fb fa) 20
      · rfl
      · exact absurd (hgap.mp hg) (by linarith)
    rw [hmatch]
    unfold rangeExpansion
    rw [hfalse]
    simp
  · intro x hx hxa hxb
    by_contra hgt
    push_neg at hgt
    have hfalse : fleInt (fsub fb fa) 20 = false := by
      cases hg : fleInt (fsub fb fa) 20
      · rfl
      · exact absurd (hgap.mp hg) (by linarith)
    rw [hmatch] at hx
    unfold rangeExpansion at hx
    rw [hfalse] at hx
    simp only [Bool.false_eq_true, if_false, List.append_nil, List.mem_cons,
      List.mem_singleton, List.not_mem_nil, or_false] at hx
    rcases hx with h | h
    · exact hxa h
    · exact hxb h

/-- C4 witness for the amended claim: a range whose float gap
(`150.99 - 100.01` rounds to `7174797156354622 · 2^-47` ≈ 50.98 > 20)
contributes exactly its endpoints. -/
theorem range_expansion_amended_witness :
    refsOfMatch (RefMatch.range "100.01" "150.99") = ["100.01", "150.99"] := by
  have hsub : fsub ⟨5312488341692744, -45⟩ ⟨7037578105208177, -46⟩ =
      ⟨7174797156354622, -47⟩ := by decide
  refine (range_expansion_amended "100.01" "150.99"
    ⟨7037578105208177, -46⟩ ⟨5312488341692744, -45⟩ (by decide) (by decide)).1 ?_
  rw [hsub]
  unfold f2q
  rw [show ((-47 : ℤ)) = -((47 : ℕ) : ℤ) by norm_num, zpow_neg, zpow_natCast,
    ← div_eq_mul_inv, lt_div_iff₀ (by positivity)]
  norm_num

/-- C5: for every section, the enrichment complexity score equals the
deterministic spec formula (start at 5; word-count, paragraph-count and
citation-count factors; clamp into `[1,10]`), and `1 ≤ complexity ≤ 10`
always holds. -/
theorem complexity_formula_claim (wc pc cc : Nat) :
    calculate_complexity wc pc cc = complexity_spec wc pc cc ∧
    1 ≤ calculate_complexity wc pc cc ∧ calculate_complexity wc pc cc ≤ 10 :=
  ⟨calculate_complexity_eq_spec wc pc cc, complexity_bounds wc pc cc⟩

/-- C6 counterexample: a record with an empty paragraphs array and no
forward citations is stored with `word_count = 0`, but its enrichment
complexity is 3 (score 5 − 1 − 1, clamped), not the scale minimum 1. -/
theorem empty_paragraphs_counterexample :
    (processRecord [] [] recEmptyParas).map
        (fun p => (p.1, p.2.word_count, p.2.enrichment.complexity)) =
      some ("100.01", 0, 3) ∧ (3 : Int) ≠ 1 := by
  exact ⟨by decide, by decide⟩

/-- C6 (amended): a record with an empty paragraphs array (and a pipe in
its header) is stored with `word_count = 0`; its enrichment complexity is
3 — not the minimum 1 — whenever the section has no forward citations. -/
theorem empty_paragraphs_amended (cm : CitationMap)
    (chainsMap : List (String × SavedChain)) (doc : InputRecord)
    (hp : doc.paragraphs = []) (hd : hasPipe doc.header = true) :
    ∃ id sec, processRecord cm chainsMap doc = some (id, sec) ∧
      sec.word_count = 0 ∧
      (alookupD cm id = [] → sec.enrichment.complexity = 3) := by
  unfold processRecord
  rw [if_neg (by simp [hd])]
  refine ⟨_, _, rfl, ?_, ?_⟩
  · simp [hp]
  · intro hcc
    simp only [hp, hcc, List.map_nil, List.sum_nil, List.length_nil]
    decide

/-- C6 witness for the amended claim. -/
theorem empty_paragraphs_amended_witness :
    ∃ id sec, processRecord [] [] recEmptyParas = some (id, sec) ∧
      sec.word_count = 0 ∧
      (alookupD ([] : CitationMap) id = [] → sec.enrichment.complexity = 3) :=
  empty_paragraphs_amended [] [] recEmptyParas rfl (by decide)

/-- C7 counterexample: the record whose header has no pipe delimiter is
not stored at all — `build_sections_database` skips it — contradicting
"the section is still stored with an empty title". -/
theorem no_pipe_counterexample :
    processRecord [] [] recNoPipe = none ∧
    buildSectionsDatabase [] [] [recNoPipe] = [] := by
  exact ⟨by decide, by decide⟩

/-- C7 (amended): a header without a pipe causes the whole record to be
skipped, so nothing is stored for it; the enricher's `_generate_summary`
does fall back to the whole stripped header on a pipeless header, but the
builder never reaches it for such records. -/
theorem no_pipe_amended (cm : CitationMap) (chainsMap : List (String × SavedChain))
    (doc : InputRecord) (h : hasPipe doc.header = false) :
    processRecord cm chainsMap doc = none ∧
    generate_summary doc.header = pyStrip doc.header := by
  constructor
  · unfold processRecord
    rw [if_pos h]
  · unfold generate_summary
    rw [if_pos h]

/-- C7 witness for the amended claim. -/
theorem no_pipe_amended_witness :
    processRecord [] [] recNoPipe = none ∧
    generate_summary recNoPipe.header = pyStrip recNoPipe.header :=
  no_pipe_amended [] [] recNoPipe (by decide)

/-- C8: Scenario 4.  On the forward map
`{A:[B,C], B:[D,E], C:[F], D:[G,H], E:[], F:[I], G:[], H:[], I:[]}` with
`max_size = 8` (and the code's per-node expansion limit of 3), the BFS
chain built for A is exactly `[A,B,C,D,E,F,G,H]`, and per-chain
visitation keeps it duplicate-free. -/
theorem bfs_chain_scenario4 :
    build_reference_chain citationMapScenario4 "A" 8 =
      ["A", "B", "C", "D", "E", "F", "G", "H"] ∧
    (build_reference_chain citationMapScenario4 "A" 8).Nodup := by
  exact ⟨by decide, by decide⟩

/-- C9 counterexample: 100.01 cites the dangling id 9999.99.  The
citations table keeps the edge with empty title/url in its details row,
but the `get_complete_context` bundle of 100.01 has an empty
`direct_citations` list — the dangling target id is omitted, not listed
with null snapshot fields. -/
theorem dangling_counterexample :
    alookup storeDangling.citations "100.01" = some cdDangling ∧
    (getCompleteContext storeDangling "100.01" true true 5).map
        (fun c => c.direct_citations) = some [] := by
  exact ⟨by decide, by decide⟩

/-- C9 (amended): the citation edge to a dangling target is kept with
empty title/url in its details row, and `get_complete_context` of the
citing section returns a bundle, raising no error — but the bundle omits
dangling targets: every direct-citation entry it lists has its id present
in the primary table. -/
theorem dangling_amended (cm : CitationMap)
    (ctxs : List (String × List CitationContext)) (sd : List (String × LegalSection))
    (store : Store) (ic ir : Bool) (mcd : Nat) (s : String) (cd : CitationData)
    (hcd : alookup (buildCitationsDatabase cm ctxs sd) s = some cd)
    (hs : (alookup store.primary s).isSome = true) :
    (∀ d ∈ cd.references_details,
       alookup sd d.sectionId = none → d.title = "" ∧ d.url = "") ∧
    ∃ ctx, getCompleteContext store s ic ir mcd = some ctx ∧
      ∀ d ∈ ctx.direct_citations, (alookup store.primary d.sectionId).isSome = true := by
  constructor
  · rw [alookup_buildCitationsDatabase] at hcd
    cases halo : alookup cm s with
    | none => rw [halo] at hcd; cases hcd
    | some refs =>
      rw [halo] at hcd
      simp only [Option.map_some', Option.some.injEq] at hcd
      subst hcd
      intro d hd hnone
      simp only [mkCitationData, List.mem_map] at hd
      obtain ⟨r, _, rfl⟩ := hd
      rw [mkRefDetail_sectionId] at hnone
      exact mkRefDetail_dangling _ sd r hnone
  · obtain ⟨sec, hsec⟩ := Option.isSome_iff_exists.mp hs
    refine ⟨ccWithChain store s ic mcd (ccWithReverse store s ir
      (ccWithCitations store s (ccBase s sec))), ?_, ?_⟩
    · unfold getCompleteContext
      rw [hsec]
    · rw [ccWithChain_direct, ccWithReverse_direct]
      refine ccWithCitations_direct_invariant store s (ccBase s sec) ?_
      intro d hd
      simp only [ccBase, List.not_mem_nil] at hd

/-- C9 witness for the amended claim, at the dangling-reference store. -/
theorem dangling_amended_witness :
    (∀ d ∈ cdDangling.references_details,
       alookup primaryDangling d.sectionId = none → d.title = "" ∧ d.url = "") ∧
    ∃ ctx, getCompleteContext storeDangling "100.01" true true 5 = some ctx ∧
      ∀ d ∈ ctx.direct_citations,
        (alookup storeDangling.primary d.sectionId).isSome = true :=
  dangling_amended cmDangling [] primaryDangling storeDangling true true 5 "100.01"
    cdDangling (by decide) (by decide)

/-- C10: `_extract_offense_level` never returns `minor_misdemeanor`: the
branches are tested in order felony, misdemeanor, minor misdemeanor, and
"minor misdemeanor" contains "misdemeanor" as a substring, so the
minor-misdemeanor branch is unreachable and such text is classified as
misdemeanor (or felony when felony language is also present). -/
theorem minor_misdemeanor_unreachable (text : String) :
    extract_offense_level text ≠ some "minor_misdemeanor" ∧
    (containsSub "minor misdemeanor" (pyToLower text) = true →
      extract_offense_level text = some "felony" ∨
      extract_offense_level text = some "misdemeanor") := by
  have hsub : containsSub "minor misdemeanor" (pyToLower text) = true →
      containsSub "misdemeanor" (pyToLower text) = true :=
    containsSub_of_infix (pyToLower text) (by decide)
  constructor
  · unfold extract_offense_level
    by_cases h1 : containsSub "felony" (pyToLower text) = true
    · simp [h1]
    · by_cases h2 : containsSub "misdemeanor" (pyToLower text) = true
      · simp [h1, h2]
      · have h3 : containsSub "minor misdemeanor" (pyToLower text) = false := by
          cases hc : containsSub "minor misdemeanor" (pyToLower text)
          · rfl
          · exact absurd (hsub hc) h2
        simp [h1, h2, h3]
  · intro hmm
    have h2 := hsub hmm
    unfold extract_offense_level
    by_cases h1 : containsSub "felony" (pyToLower text) = true
    · left; simp [h1]
    · right; simp [h1, h2]

/-- C10 witness: concrete text containing "minor misdemeanor". -/
theorem minor_misdemeanor_unreachable_witness :
    extract_offense_level "Minor Misdemeanor offense" ≠ some "minor_misdemeanor" ∧
    (extract_offense_level "Minor Misdemeanor offense" = some "felony" ∨
     extract_offense_level "Minor Misdemeanor offense" = some "misdemeanor") :=
  ⟨(minor_misdemeanor_unreachable "Minor Misdemeanor offense").1,
   (minor_misdemeanor_unreachable "Minor Misdemeanor offense").2 (by decide)⟩

end OhioCode
